import Mathlib

/-!
A verification development for the `goscaffold` graceful-shutdown core.

The Go sources embedded here:

* `requestTracker` (fields `C`, `shuttingDown`, `shutdownReason`,
  `commandChan`) and its methods `start`, `end`, `shutdown`, `sendStop`,
  together with the goroutine `trackerLoop` (local variables
  `activeRequests`, `stopping`, `sentStop`, `graceTimer`).
* `httpHandler.ServeHTTP`, the guarded handler that asks the tracker for
  admission and writes a content-negotiated 503 on rejection.
* `HTTPScaffold.Open` / `Listen` / `Shutdown` (the variant whose `Listen`
  auto-opens and returns the shutdown reason).

A Go `error` value is modelled as `Option String` (`none` is the nil
error).  `shutdownReason` is an `atomic.Value` holding a non-nil pointer
`*error` once `shutdown` has stored it; we model it as
`Option Reason`, where `none` means "never stored".  (The Go code's
`reason == nil` test on the loaded pointer is dead: `shutdown` always
stores the address of its parameter, so a stored pointer is never nil;
and `start`/`sendStop` load it only after the `shuttingDown` flag, which
the loop sets strictly after the store, so the load never sees the empty
`atomic.Value`.)

Concurrency is modelled as an interleaving semantics: every externally
visible atomic action — a caller running `start`, `end` or `shutdown`,
the tracker goroutine receiving one command, the grace timer firing — is
one event (`Ev`), and a behaviour of the system is an arbitrary finite
list of events interpreted from the initial state.  Each caller
operation is taken as a single atomic event (the flag load and the
channel send inside one `start`, the reason store and the channel send
inside one `shutdown`); the interleavings this granularity hides only
delay a command's enqueue relative to other callers and do not affect
the properties studied here.  The command channel
is the FIFO `queue` (the Go channel has capacity 100; the claims under
study do not depend on the bound, so the queue is unbounded here).  The
grace timer is created with duration `math.MaxInt64` and only ever
`Reset` to `shutdownWait`, so a timer-fire event is enabled once the
loop has armed it (`graceArmed`).
-/

/-- A Go `error` value: `none` is the nil error. -/
abbrev Reason := Option String

/-- Values of the tracker's command channel (`startRequest`, `endRequest`,
`shutdown` constants in the Go source). -/
inductive Cmd where
  | startRequest
  | endRequest
  | shutdown
deriving DecidableEq, Repr

/-- The whole tracker: the `requestTracker` struct fields together with the
local state of its `trackerLoop` goroutine and the history of values sent
on the completion channel `C`. -/
structure TrackerState where
  /-- the `shuttingDown` int32 flag (read by `start`, written by the loop) -/
  shuttingDown : Bool
  /-- the `shutdownReason` atomic.Value; `none` = never stored -/
  storedReason : Option Reason
  /-- the buffered `commandChan`, head = next command the loop receives -/
  queue : List Cmd
  /-- loop-local `activeRequests` -/
  activeRequests : Int
  /-- loop-local `stopping` -/
  stopping : Bool
  /-- loop-local `sentStop`; once true the loop has exited -/
  sentStop : Bool
  /-- whether `graceTimer.Reset(shutdownWait)` has been executed -/
  graceArmed : Bool
  /-- values delivered on the completion channel `C`, in order -/
  delivered : List Reason
deriving DecidableEq, Repr

/-- State after `startRequestTracker`: the freshly created tracker with its loop at the
top of `trackerLoop`. -/
def initTracker : TrackerState :=
  { shuttingDown := false
    storedReason := none
    queue := []
    activeRequests := 0
    stopping := false
    sentStop := false
    graceArmed := false
    delivered := [] }

/-- Go `requestTracker.start`: returns the error handed to the caller
(`none` = request may proceed) and the tracker state after the call.
When the `shuttingDown` flag is unset it enqueues `startRequest`;
otherwise it returns the dereferenced stored reason without touching the
queue.  (The `none` branch of the inner match is the unreachable
empty-`atomic.Value` load.) -/
def start (s : TrackerState) : Reason × TrackerState :=
  if s.shuttingDown then
    match s.storedReason with
    | some r => (r, s)
    | none => (none, s)
  else
    (none, { s with queue := s.queue ++ [Cmd.startRequest] })

/-- Go `requestTracker.end`: enqueues `endRequest`. -/
def endStep (s : TrackerState) : TrackerState :=
  { s with queue := s.queue ++ [Cmd.endRequest] }

/-- Go `requestTracker.shutdown reason`: stores (unconditionally overwrites)
the reason, then enqueues the `shutdown` command. -/
def shutdownStep (r : Reason) (s : TrackerState) : TrackerState :=
  { s with storedReason := some r, queue := s.queue ++ [Cmd.shutdown] }

/-- Go `requestTracker.sendStop` called with `sent = sentStop = false` (the
only way the loop calls it): loads the reason pointer; if it is nil it
returns `false` (no send), otherwise it sends the dereferenced reason on
`C` and returns `true`.  The returned boolean becomes `sentStop`. -/
def sendStop (s : TrackerState) : TrackerState :=
  match s.storedReason with
  | none => s
  | some r => { s with delivered := s.delivered ++ [r], sentStop := true }

/-- One `case cmd := <-t.commandChan` arm of the loop's `select`, applied
to a state whose queue head has already been removed. -/
def processCmd (s : TrackerState) (c : Cmd) : TrackerState :=
  match c with
  | Cmd.startRequest => { s with activeRequests := s.activeRequests + 1 }
  | Cmd.endRequest =>
      let s1 := { s with activeRequests := s.activeRequests - 1 }
      if s1.stopping ∧ s1.activeRequests = 0 then sendStop s1 else s1
  | Cmd.shutdown =>
      let s1 := { s with stopping := true, shuttingDown := true }
      if s1.activeRequests ≤ 0 then sendStop s1
      else { s1 with graceArmed := true }

/-- One iteration of `trackerLoop` receiving from `commandChan`.  If
`sentStop` is already true the loop has exited and nothing happens. -/
def loopStep (s : TrackerState) : TrackerState :=
  if s.sentStop then s
  else
    match s.queue with
    | [] => s
    | c :: rest => processCmd { s with queue := rest } c

/-- The `case <-graceTimer.C` arm of the loop's `select`.  The timer is
created with duration `math.MaxInt64`, so it can only fire after the loop
has armed it; after the loop has exited the channel is never received. -/
def timerFire (s : TrackerState) : TrackerState :=
  if s.sentStop then s
  else if s.graceArmed then sendStop s
  else s

/-- An externally visible atomic event of the system. -/
inductive Ev where
  /-- some caller runs `requestTracker.start` -/
  | startC
  /-- some caller runs `requestTracker.end` -/
  | endC
  /-- some caller runs `requestTracker.shutdown r` -/
  | shutdownC (r : Reason)
  /-- the tracker loop receives one command -/
  | loop
  /-- the grace timer fires -/
  | timer
deriving DecidableEq, Repr

/-- Interpretation of one event. -/
def stepEv (s : TrackerState) (e : Ev) : TrackerState :=
  match e with
  | Ev.startC => (start s).2
  | Ev.endC => endStep s
  | Ev.shutdownC r => shutdownStep r s
  | Ev.loop => loopStep s
  | Ev.timer => timerFire s

/-- The state after a finite behaviour (list of events) from the fresh
tracker. -/
def runEvents (es : List Ev) : TrackerState :=
  es.foldl stepEv initTracker

/-- Ghost bookkeeping carried alongside the tracker state: how many
`start` calls reported admission (returned nil), how many `end` calls
were made, and how many `start` calls actually enqueued a
`startRequest` command (the slow path). -/
structure GState where
  t : TrackerState
  /-- number of `start` calls that returned the nil error (the caller proceeds) -/
  admitted : Nat
  /-- number of `end` calls made -/
  endCalls : Nat
  /-- number of `start` calls that enqueued `startRequest` -/
  saCount : Nat
deriving DecidableEq, Repr

def initG : GState :=
  { t := initTracker, admitted := 0, endCalls := 0, saCount := 0 }

/-- One event, with ghost counters. -/
def gstep (g : GState) (e : Ev) : GState :=
  match e with
  | Ev.startC =>
      { g with
        t := (start g.t).2
        admitted := if (start g.t).1 = none then g.admitted + 1 else g.admitted
        saCount := if g.t.shuttingDown then g.saCount else g.saCount + 1 }
  | Ev.endC => { g with t := endStep g.t, endCalls := g.endCalls + 1 }
  | e => { g with t := stepEv g.t e }

def grun (es : List Ev) : GState :=
  es.foldl gstep initG

/-- Number of `startC` events in a behaviour. -/
def countStartEv : List Ev → Nat
  | [] => 0
  | Ev.startC :: rest => countStartEv rest + 1
  | _ :: rest => countStartEv rest

/-- Number of `endC` events in a behaviour. -/
def countEndEv : List Ev → Nat
  | [] => 0
  | Ev.endC :: rest => countEndEv rest + 1
  | _ :: rest => countEndEv rest

/-- Whether a behaviour contains a `shutdownC` event. -/
def hasShutdown : List Ev → Bool
  | [] => false
  | Ev.shutdownC _ :: _ => true
  | _ :: rest => hasShutdown rest

/-- Every `shutdownC` event in the behaviour carries the reason `r`. -/
def shutdownOnlyB (r : Reason) : List Ev → Bool
  | [] => true
  | Ev.shutdownC r' :: rest => decide (r' = r) && shutdownOnlyB r rest
  | _ :: rest => shutdownOnlyB r rest

/-- Number of `startRequest` commands in a queue. -/
def startCmds : List Cmd → Nat
  | [] => 0
  | Cmd.startRequest :: rest => startCmds rest + 1
  | _ :: rest => startCmds rest

/-- Number of `endRequest` commands in a queue. -/
def endCmds : List Cmd → Nat
  | [] => 0
  | Cmd.endRequest :: rest => endCmds rest + 1
  | _ :: rest => endCmds rest

/-- Processing the queue (before the first `shutdown` command, after which
the stopping-phase logic takes over) never drives the counter negative:
every `endRequest` encountered must find a positive counter. -/
def QSafe : Int → List Cmd → Prop
  | _, [] => True
  | a, Cmd.startRequest :: rest => QSafe (a + 1) rest
  | a, Cmd.endRequest :: rest => 0 ≤ a - 1 ∧ QSafe (a - 1) rest
  | _, Cmd.shutdown :: _ => True

/-- The caller-contract of §8 / claim C6: at every point of the
behaviour, the number of `end` calls made so far does not exceed the
number of `start` calls that reported admission (starts and ends are
paired, an `end` only after its `start` was admitted). -/
def ValidPairing (es : List Ev) : Prop :=
  ∀ n : Nat, (grun (es.take n)).endCalls ≤ (grun (es.take n)).admitted

/-- The spec's barrier phase, read off the loop state. -/
inductive Phase where
  | Active
  | Draining
  | Stopped
deriving DecidableEq, Repr

def phase (s : TrackerState) : Phase :=
  if s.sentStop then Phase.Stopped
  else if s.stopping then Phase.Draining
  else Phase.Active

def phaseRank : Phase → Nat
  | Phase.Active => 0
  | Phase.Draining => 1
  | Phase.Stopped => 2

/-- Iterating the tracker loop a given number of times. -/
def loopDrain : Nat → TrackerState → TrackerState
  | 0, s => s
  | n + 1, s => loopDrain n (loopStep s)

/-- Modelled from the spec: `SelectMediaType` is code of this repository
that is not among the provided source files (only its caller
`httpHandler.ServeHTTP` is).  Per §6 it is a pure content-negotiation
function `selectMediaType(acceptHeader, supportedTypes) → chosenType`
that picks a response media type from the client's Accept header against
the server-supported list, "defaulting to plain text if negotiation
fails". -/
def SelectMediaType (accept : String) (supported : List String) : String :=
  if accept ∈ supported then accept else "text/plain"

/-- How the downstream (wrapped) handler behaves on this request. -/
inductive Outcome where
  /-- the handler returns normally -/
  | normal
  /-- the handler panics (unwinds through `httpHandler.ServeHTTP`) -/
  | panics
deriving DecidableEq, Repr

/-- The body the guarded handler writes on a rejected request. -/
inductive RespBody where
  /-- the `json.Marshal` of `map[string]string{"error": ..., "message": ...}` -/
  | jsonError (error message : String)
  /-- the raw reason text -/
  | raw (text : String)
deriving DecidableEq, Repr

/-- The response the guarded handler itself writes (only on rejection;
on admission the downstream handler writes the response, which is out of
scope here). -/
structure RejResponse where
  status : Nat
  contentType : String
  body : RespBody
deriving DecidableEq, Repr

/-- Everything observable about one `httpHandler.ServeHTTP` invocation. -/
structure ServeResult where
  /-- tracker state when `ServeHTTP` returns (or unwinds) -/
  state : TrackerState
  /-- whether the downstream handler was invoked -/
  downstreamCalled : Bool
  /-- whether `tracker.end()` was executed -/
  endCalled : Bool
  /-- whether a panic escaped `ServeHTTP` -/
  panicked : Bool
  /-- the rejection response written, if any -/
  response : Option RejResponse
deriving DecidableEq, Repr

/-- Go `httpHandler.ServeHTTP`: asks the tracker with `start()`; a nil
result means the downstream handler runs, followed by a plain (non
deferred) `end()` call, which is therefore skipped when the downstream
handler panics; a non-nil result means a content-negotiated 503 with the
reason text, the downstream handler not invoked. -/
def serveHTTP (s : TrackerState) (accept : String) (oc : Outcome) : ServeResult :=
  match start s with
  | (none, s1) =>
      match oc with
      | Outcome.normal =>
          { state := endStep s1, downstreamCalled := true, endCalled := true,
            panicked := false, response := none }
      | Outcome.panics =>
          { state := s1, downstreamCalled := true, endCalled := false,
            panicked := true, response := none }
  | (some msg, s1) =>
      let mt := SelectMediaType accept ["text/plain", "application/json"]
      { state := s1, downstreamCalled := false, endCalled := false,
        panicked := false,
        response := some
          { status := 503, contentType := mt,
            body :=
              if mt = "application/json" then RespBody.jsonError "Stopping" msg
              else RespBody.raw msg } }

/-- The `HTTPScaffold` fields relevant to the lifecycle claims (`open`
is a Lean keyword, so the field is called `opened`); `closeCount` counts
`insecureListener.Close()` calls. -/
structure ScaffoldState where
  insecurePort : Nat
  opened : Bool
  trackerCreated : Bool
  listenerBound : Bool
  closeCount : Nat
deriving DecidableEq, Repr

/-- Go `HTTPScaffold.Open`: creates the tracker, then binds the listener;
`bindOk` models whether `net.ListenTCP` succeeds.  Returns the new state
and whether `Open` returned nil. -/
def openScaffold (s : ScaffoldState) (bindOk : Bool) : ScaffoldState × Bool :=
  let s1 := { s with trackerCreated := true }
  if bindOk then ({ s1 with listenerBound := true, opened := true }, true)
  else (s1, false)

/-- The observable result of `HTTPScaffold.Listen`. -/
structure ListenResult where
  state : ScaffoldState
  /-- result `some r` = Listen returned the error `r` received from `tracker.C`;
  `none` = Listen returned early with the `Open` error -/
  returned : Option Reason
  bindFailed : Bool
deriving DecidableEq, Repr

/-- Go `HTTPScaffold.Listen` (named `listenScaffold` here because plain
`listen` collides with a Mathlib export): opens first if not already
opened (returning the bind error on failure), wraps the handler, serves
on a goroutine, then blocks on `<-s.tracker.C`; `completion` is the
value that receive yields (the one value `sendStop` delivered).  After
the receive it closes the listener and returns the received error. -/
def listenScaffold (s : ScaffoldState) (bindOk : Bool) (completion : Reason) :
    ListenResult :=
  if s.opened then
    { state := { s with closeCount := s.closeCount + 1 },
      returned := some completion, bindFailed := false }
  else
    match openScaffold s bindOk with
    | (s1, true) =>
        { state := { s1 with closeCount := s1.closeCount + 1 },
          returned := some completion, bindFailed := false }
    | (s1, false) =>
        { state := s1, returned := none, bindFailed := true }

/-- Demonstration behaviour for the nil-reason shutdown edge case: one
admitted request, a nil-reason shutdown, a fast-path admission while
draining, then the first request's `end` drains the barrier while the
fast-path request is still running. -/
def demoC10 : List Ev :=
  [Ev.startC, Ev.loop, Ev.shutdownC none, Ev.loop, Ev.startC, Ev.endC, Ev.loop]

/-- A freshly created scaffold (`CreateHTTPScaffold` with port 0, not
yet opened). -/
def demoScaffold : ScaffoldState :=
  { insecurePort := 0, opened := false, trackerCreated := false,
    listenerBound := false, closeCount := 0 }

/-- A shutdown has been requested and not yet acted on: either the loop
has already set `stopping`, or the `shutdown` command is still queued. -/
def SdPending (s : TrackerState) : Prop :=
  s.stopping = true ∨ Cmd.shutdown ∈ s.queue

/-- Invariants of the tracker plus ghost counters that hold whenever the
callers respect the pairing contract (`ValidPairing`): the active count
is never negative and the loop never processes an `endRequest` that
would make it so. -/
structure InvB (g : GState) : Prop where
  /-- the loop's `activeRequests` is never negative -/
  active_nonneg : 0 ≤ g.t.activeRequests
  /-- while draining and not yet stopped, the count is strictly positive -/
  draining_pos : g.t.stopping = true → g.t.sentStop = false → 0 < g.t.activeRequests
  /-- before stopping, the queued commands can be processed safely -/
  queue_safe : g.t.stopping = false → QSafe g.t.activeRequests g.t.queue
  /-- the count plus queued deltas equals enqueued starts minus `end` calls -/
  conservation :
    g.t.activeRequests + (startCmds g.t.queue : Int) - (endCmds g.t.queue : Int)
      = (g.saCount : Int) - (g.endCalls : Int)
  /-- before stopping, every admission went through the queue -/
  admitted_eq : g.t.stopping = false → g.admitted = g.saCount

/-- Invariants of the tracker that hold on every behaviour, with no
assumption on how callers pair `start` and `end`. -/
structure InvA (s : TrackerState) : Prop where
  /-- the atomic flag mirrors the loop's `stopping` variable -/
  flag_eq : s.shuttingDown = s.stopping
  /-- once stopping, a reason has been stored -/
  stop_reason : s.stopping = true → s.storedReason.isSome
  /-- a queued shutdown command implies a stored reason -/
  queue_reason : Cmd.shutdown ∈ s.queue → s.storedReason.isSome
  /-- the grace timer is armed only while stopping -/
  armed_stopping : s.graceArmed = true → s.stopping = true
  /-- the loop exits only from the stopping phase -/
  sent_stopping : s.sentStop = true → s.stopping = true
  /-- the completion channel received exactly one value iff the loop exited -/
  delivered_len : s.delivered.length = (if s.sentStop then 1 else 0)
  /-- while stopping and not yet stopped, the grace timer is armed -/
  stopping_armed : s.stopping = true → s.sentStop = false → s.graceArmed = true

theorem start_slow {s : TrackerState} (h : s.shuttingDown = false) :
    start s = (none, { s with queue := s.queue ++ [Cmd.startRequest] }) := by
  simp [start, h]

theorem start_fast {s : TrackerState} {r : Reason} (h : s.shuttingDown = true)
    (hr : s.storedReason = some r) : start s = (r, s) := by
  simp [start, h, hr]

theorem start_snd_fast {s : TrackerState} (h : s.shuttingDown = true) :
    (start s).2 = s := by
  simp only [start, h, if_true]
  rcases s.storedReason with _ | r <;> rfl

theorem sendStop_none {s : TrackerState} (h : s.storedReason = none) :
    sendStop s = s := by
  simp [sendStop, h]

theorem sendStop_some {s : TrackerState} (r : Reason) (h : s.storedReason = some r) :
    sendStop s = { s with delivered := s.delivered ++ [r], sentStop := true } := by
  simp [sendStop, h]

theorem processCmd_start (s : TrackerState) :
    processCmd s Cmd.startRequest = { s with activeRequests := s.activeRequests + 1 } :=
  rfl

theorem processCmd_end (s : TrackerState) :
    processCmd s Cmd.endRequest =
      if s.stopping = true ∧ s.activeRequests - 1 = 0 then
        sendStop { s with activeRequests := s.activeRequests - 1 }
      else { s with activeRequests := s.activeRequests - 1 } :=
  rfl

theorem processCmd_end_fire {s : TrackerState} (h1 : s.stopping = true)
    (h2 : s.activeRequests - 1 = 0) :
    processCmd s Cmd.endRequest = sendStop { s with activeRequests := s.activeRequests - 1 } := by
  rw [processCmd_end, if_pos ⟨h1, h2⟩]

theorem processCmd_end_skip {s : TrackerState}
    (h : ¬(s.stopping = true ∧ s.activeRequests - 1 = 0)) :
    processCmd s Cmd.endRequest = { s with activeRequests := s.activeRequests - 1 } := by
  rw [processCmd_end, if_neg h]

theorem processCmd_sd (s : TrackerState) :
    processCmd s Cmd.shutdown =
      if s.activeRequests ≤ 0 then
        sendStop { s with stopping := true, shuttingDown := true }
      else { s with stopping := true, shuttingDown := true, graceArmed := true } :=
  rfl

theorem processCmd_sd_fire {s : TrackerState} (h : s.activeRequests ≤ 0) :
    processCmd s Cmd.shutdown = sendStop { s with stopping := true, shuttingDown := true } := by
  rw [processCmd_sd, if_pos h]

theorem processCmd_sd_arm {s : TrackerState} (h : ¬s.activeRequests ≤ 0) :
    processCmd s Cmd.shutdown =
      { s with stopping := true, shuttingDown := true, graceArmed := true } := by
  rw [processCmd_sd, if_neg h]

theorem loopStep_sent {s : TrackerState} (h : s.sentStop = true) : loopStep s = s := by
  simp [loopStep, h]

theorem loopStep_nil {s : TrackerState} (h : s.queue = []) : loopStep s = s := by
  simp [loopStep, h]

theorem loopStep_cons {s : TrackerState} {c : Cmd} {rest : List Cmd}
    (h : s.sentStop = false) (hq : s.queue = c :: rest) :
    loopStep s = processCmd { s with queue := rest } c := by
  simp [loopStep, h, hq]

theorem timerFire_sent {s : TrackerState} (h : s.sentStop = true) : timerFire s = s := by
  simp [timerFire, h]

theorem timerFire_unarmed {s : TrackerState} (h : s.graceArmed = false) :
    timerFire s = s := by
  simp [timerFire, h]

theorem timerFire_armed {s : TrackerState} (h : s.sentStop = false)
    (hg : s.graceArmed = true) : timerFire s = sendStop s := by
  simp [timerFire, h, hg]

theorem invA_init : InvA initTracker := by
  constructor <;> intros <;> simp_all [initTracker]

theorem invA_step {s : TrackerState} (e : Ev) (h : InvA s) : InvA (stepEv s e) := by
  obtain ⟨h1, h2, h3, h4, h5, h6, h7⟩ := h
  cases e with
  | startC =>
      show InvA (start s).2
      by_cases hf : s.shuttingDown
      · rw [start_snd_fast hf]; exact ⟨h1, h2, h3, h4, h5, h6, h7⟩
      · rw [start_slow (by simpa using hf)]
        constructor <;> intros <;> simp_all
  | endC =>
      constructor <;> intros <;> simp_all [stepEv, endStep]
  | shutdownC r =>
      constructor <;> intros <;> simp_all [stepEv, shutdownStep]
  | loop =>
      show InvA (loopStep s)
      by_cases hss : s.sentStop
      · rw [loopStep_sent hss]; exact ⟨h1, h2, h3, h4, h5, h6, h7⟩
      · rcases hq : s.queue with _ | ⟨c, rest⟩
        · rw [loopStep_nil hq]; exact ⟨h1, h2, h3, h4, h5, h6, h7⟩
        · rw [loopStep_cons (by simpa using hss) hq]
          have hrest : Cmd.shutdown ∈ rest → s.storedReason.isSome := by
            intro hm; exact h3 (by rw [hq]; exact List.mem_cons_of_mem _ hm)
          cases c with
          | startRequest =>
              rw [processCmd_start]
              constructor <;> intros <;> simp_all
          | endRequest =>
              by_cases hcond : s.stopping = true ∧ s.activeRequests - 1 = 0
              · obtain ⟨hstp, hz⟩ := hcond
                rw [processCmd_end_fire (by simpa using hstp) (by simpa using hz)]
                rcases hsome : s.storedReason with _ | r
                · exact absurd (h2 hstp) (by simp [hsome])
                · rw [sendStop_some r (by simp)]
                  constructor <;> intros <;> simp_all
              · rw [processCmd_end_skip (by simpa using hcond)]
                constructor <;> intros <;> simp_all
          | shutdown =>
              have hr : s.storedReason.isSome :=
                h3 (by rw [hq]; exact List.mem_cons_self _ _)
              rcases hsome : s.storedReason with _ | r
              · exact absurd hr (by simp [hsome])
              · by_cases ha : s.activeRequests ≤ 0
                · rw [processCmd_sd_fire (by simpa using ha)]
                  rw [sendStop_some r (by simp)]
                  constructor <;> intros <;> simp_all
                · rw [processCmd_sd_arm (by simpa using ha)]
                  constructor <;> intros <;> simp_all
  | timer =>
      show InvA (timerFire s)
      by_cases hss : s.sentStop
      · rw [timerFire_sent hss]; exact ⟨h1, h2, h3, h4, h5, h6, h7⟩
      · by_cases hg : s.graceArmed
        · have hst := h4 hg
          rcases hsome : s.storedReason with _ | r
          · exact absurd (h2 hst) (by simp [hsome])
          · rw [timerFire_armed (by simpa using hss) hg, sendStop_some r hsome]
            constructor <;> intros <;> simp_all
        · rw [timerFire_unarmed (by simpa using hg)]
          exact ⟨h1, h2, h3, h4, h5, h6, h7⟩

theorem foldl_invA {es : List Ev} {s : TrackerState} (h : InvA s) :
    InvA (es.foldl stepEv s) := by
  induction es generalizing s with
  | nil => exact h
  | cons e rest ih => exact ih (invA_step e h)

theorem invA_run (es : List Ev) : InvA (runEvents es) :=
  foldl_invA invA_init

theorem runEvents_append (es : List Ev) (e : Ev) :
    runEvents (es ++ [e]) = stepEv (runEvents es) e := by
  simp [runEvents, List.foldl_append]

theorem grun_append (es : List Ev) (e : Ev) :
    grun (es ++ [e]) = gstep (grun es) e := by
  simp [grun, List.foldl_append]

theorem gstep_t (g : GState) (e : Ev) : (gstep g e).t = stepEv g.t e := by
  cases e <;> rfl

theorem foldl_gstep_t (es : List Ev) (g : GState) :
    (es.foldl gstep g).t = es.foldl stepEv g.t := by
  induction es generalizing g with
  | nil => rfl
  | cons e rest ih => rw [List.foldl_cons, List.foldl_cons, ih, gstep_t]

theorem grun_t (es : List Ev) : (grun es).t = runEvents es :=
  foldl_gstep_t es initG

theorem startCmds_append (q1 q2 : List Cmd) :
    startCmds (q1 ++ q2) = startCmds q1 + startCmds q2 := by
  induction q1 with
  | nil => simp [startCmds]
  | cons c rest ih => cases c <;> simp [startCmds, ih] <;> omega

theorem endCmds_append (q1 q2 : List Cmd) :
    endCmds (q1 ++ q2) = endCmds q1 + endCmds q2 := by
  induction q1 with
  | nil => simp [endCmds]
  | cons c rest ih => cases c <;> simp [endCmds, ih] <;> omega

theorem qsafe_append_start {q : List Cmd} {a : Int} (h : QSafe a q) :
    QSafe a (q ++ [Cmd.startRequest]) := by
  induction q generalizing a with
  | nil => trivial
  | cons c rest ih =>
      cases c with
      | startRequest => exact ih h
      | endRequest => exact ⟨h.1, ih h.2⟩
      | shutdown => trivial

theorem qsafe_append_sd {q : List Cmd} {a : Int} (h : QSafe a q) :
    QSafe a (q ++ [Cmd.shutdown]) := by
  induction q generalizing a with
  | nil => trivial
  | cons c rest ih =>
      cases c with
      | startRequest => exact ih h
      | endRequest => exact ⟨h.1, ih h.2⟩
      | shutdown => trivial

theorem qsafe_append_end_mem {q : List Cmd} {a : Int} (hm : Cmd.shutdown ∈ q)
    (h : QSafe a q) : QSafe a (q ++ [Cmd.endRequest]) := by
  induction q generalizing a with
  | nil => cases hm
  | cons c rest ih =>
      cases c with
      | startRequest =>
          exact ih (by simpa using hm) h
      | endRequest =>
          exact ⟨h.1, ih (by simpa using hm) h.2⟩
      | shutdown => trivial

theorem qsafe_append_end {q : List Cmd} {a : Int} (hm : Cmd.shutdown ∉ q)
    (h : QSafe a q) (hbal : 1 ≤ a + (startCmds q : Int) - (endCmds q : Int)) :
    QSafe a (q ++ [Cmd.endRequest]) := by
  induction q generalizing a with
  | nil =>
      refine ⟨by simpa [startCmds, endCmds] using hbal, trivial⟩
  | cons c rest ih =>
      cases c with
      | startRequest =>
          refine ih (by simpa using hm) h ?_
          simp only [startCmds, endCmds] at hbal ⊢
          push_cast at hbal ⊢
          omega
      | endRequest =>
          refine ⟨h.1, ih (by simpa using hm) h.2 ?_⟩
          simp only [startCmds, endCmds] at hbal ⊢
          push_cast at hbal ⊢
          omega
      | shutdown => exact absurd (List.mem_cons_self _ _) hm

theorem invB_init : InvB initG := by
  constructor <;> intros <;> simp_all [initG, initTracker, startCmds, endCmds, QSafe]

theorem invB_step {g : GState} (e : Ev) (hA : InvA g.t) (hB : InvB g)
    (hend : e = Ev.endC → g.endCalls + 1 ≤ g.admitted) : InvB (gstep g e) := by
  obtain ⟨b1, b2, b3, b4, b5⟩ := hB
  cases e with
  | startC =>
      by_cases hf : g.t.shuttingDown = true
      · have hstp : g.t.stopping = true := by rw [← hA.flag_eq]; exact hf
        refine ⟨?_, ?_, ?_, ?_, ?_⟩ <;>
          simp only [gstep, start_snd_fast hf, hf, if_true]
        · exact b1
        · exact b2
        · exact b3
        · exact b4
        · intro h0; rw [hstp] at h0; cases h0
      · have hf' : g.t.shuttingDown = false := by simpa using hf
        have hstp : g.t.stopping = false := by rw [← hA.flag_eq]; exact hf'
        refine ⟨?_, ?_, ?_, ?_, ?_⟩ <;>
          simp only [gstep, start_slow hf', hf', Bool.false_eq_true, if_false, if_true]
        · exact b1
        · intro h0; exact absurd (by simpa using h0) (by simp [hstp])
        · intro _; exact qsafe_append_start (b3 hstp)
        · simp only [startCmds_append, endCmds_append, startCmds, endCmds]
          push_cast
          push_cast at b4
          omega
        · intro _; simp [b5 hstp]
  | endC =>
      have hpair := hend rfl
      refine ⟨?_, ?_, ?_, ?_, ?_⟩ <;>
        simp only [gstep, endStep]
      · exact b1
      · exact b2
      · intro h0
        have hq := b3 (by simpa using h0)
        by_cases hm : Cmd.shutdown ∈ g.t.queue
        · exact qsafe_append_end_mem hm hq
        · refine qsafe_append_end hm hq ?_
          have hadm := b5 (by simpa using h0)
          push_cast at b4 ⊢
          omega
      · simp only [startCmds_append, endCmds_append, startCmds, endCmds]
        push_cast
        push_cast at b4
        omega
      · intro h0; exact b5 (by simpa using h0)
  | shutdownC r =>
      refine ⟨?_, ?_, ?_, ?_, ?_⟩ <;>
        simp only [gstep, stepEv, shutdownStep]
      · exact b1
      · exact b2
      · intro h0; exact qsafe_append_sd (b3 (by simpa using h0))
      · simp only [startCmds_append, endCmds_append, startCmds, endCmds]
        push_cast
        push_cast at b4
        omega
      · intro h0; exact b5 (by simpa using h0)
  | loop =>
      have hgh : gstep g Ev.loop = { g with t := loopStep g.t } := rfl
      rw [hgh]
      by_cases hss : g.t.sentStop = true
      · rw [loopStep_sent hss]
        exact ⟨b1, b2, b3, b4, b5⟩
      · have hss' : g.t.sentStop = false := by simpa using hss
        rcases hq : g.t.queue with _ | ⟨c, rest⟩
        · rw [loopStep_nil hq]
          exact ⟨b1, b2, b3, b4, b5⟩
        · rw [loopStep_cons hss' hq]
          cases c with
          | startRequest =>
              rw [processCmd_start]
              refine ⟨by simpa using by omega, ?_, ?_, ?_, ?_⟩
              · intro _ _; simp only []
                have := b1
                omega
              · intro h0
                have hq0 := b3 (by simpa using h0)
                rw [hq] at hq0
                exact hq0
              · rw [hq] at b4
                simp only [startCmds, endCmds] at b4 ⊢
                push_cast at b4 ⊢
                omega
              · intro h0; exact b5 (by simpa using h0)
          | endRequest =>
              by_cases hcond : g.t.stopping = true ∧ g.t.activeRequests - 1 = 0
              · obtain ⟨hstp, hz⟩ := hcond
                rw [processCmd_end_fire (by simpa using hstp) (by simpa using hz)]
                rcases hsome : g.t.storedReason with _ | r
                · exact absurd (hA.stop_reason hstp) (by simp [hsome])
                · rw [sendStop_some r (by simp [hsome])]
                  refine ⟨by simpa using by omega, ?_, ?_, ?_, ?_⟩
                  · intro _ h0; simp at h0
                  · intro h0; rw [hstp] at h0; cases h0
                  · rw [hq] at b4
                    simp only [startCmds, endCmds] at b4 ⊢
                    push_cast at b4 ⊢
                    omega
                  · intro h0; rw [hstp] at h0; cases h0
              · rw [processCmd_end_skip (by simpa using hcond)]
                by_cases hstp : g.t.stopping = true
                · have hpos := b2 hstp hss'
                  have hnz : ¬g.t.activeRequests - 1 = 0 := fun hz => hcond ⟨hstp, hz⟩
                  refine ⟨by simpa using by omega, ?_, ?_, ?_, ?_⟩
                  · intro _ _; simp only []; omega
                  · intro h0; rw [hstp] at h0; cases h0
                  · rw [hq] at b4
                    simp only [startCmds, endCmds] at b4 ⊢
                    push_cast at b4 ⊢
                    omega
                  · intro h0; rw [hstp] at h0; cases h0
                · have hstp' : g.t.stopping = false := by simpa using hstp
                  have hq0 := b3 hstp'
                  rw [hq] at hq0
                  obtain ⟨hge, hqrest⟩ := hq0
                  refine ⟨by simpa using hge, ?_, ?_, ?_, ?_⟩
                  · intro h0; rw [hstp'] at h0; cases h0
                  · intro _; exact hqrest
                  · rw [hq] at b4
                    simp only [startCmds, endCmds] at b4 ⊢
                    push_cast at b4 ⊢
                    omega
                  · intro _; exact b5 hstp'
          | shutdown =>
              rcases hsome : g.t.storedReason with _ | r
              · exact absurd (hA.queue_reason (by rw [hq]; exact List.mem_cons_self _ _))
                  (by simp [hsome])
              · by_cases ha : g.t.activeRequests ≤ 0
                · rw [processCmd_sd_fire (by simpa using ha)]
                  rw [sendStop_some r (by simp [hsome])]
                  refine ⟨by simpa using b1, ?_, ?_, ?_, ?_⟩
                  · intro _ h0; simp at h0
                  · intro h0; simp at h0
                  · rw [hq] at b4
                    simp only [startCmds, endCmds] at b4 ⊢
                    push_cast at b4 ⊢
                    omega
                  · intro h0; simp at h0
                · rw [processCmd_sd_arm (by simpa using ha)]
                  refine ⟨by simpa using b1, ?_, ?_, ?_, ?_⟩
                  · intro _ _; simp only []; omega
                  · intro h0; simp at h0
                  · rw [hq] at b4
                    simp only [startCmds, endCmds] at b4 ⊢
                    push_cast at b4 ⊢
                    omega
                  · intro h0; simp at h0
  | timer =>
      have hgh : gstep g Ev.timer = { g with t := timerFire g.t } := rfl
      rw [hgh]
      by_cases hss : g.t.sentStop = true
      · rw [timerFire_sent hss]
        exact ⟨b1, b2, b3, b4, b5⟩
      · by_cases hg : g.t.graceArmed = true
        · have hstp := hA.armed_stopping hg
          rcases hsome : g.t.storedReason with _ | r
          · exact absurd (hA.stop_reason hstp) (by simp [hsome])
          · rw [timerFire_armed (by simpa using hss) hg, sendStop_some r hsome]
            refine ⟨by simpa using b1, ?_, ?_, ?_, ?_⟩
            · intro _ h0; simp at h0
            · intro h0; rw [hstp] at h0; cases h0
            · exact b4
            · intro h0; rw [hstp] at h0; cases h0
        · rw [timerFire_unarmed (by simpa using hg)]
          exact ⟨b1, b2, b3, b4, b5⟩

theorem take_append_le {α : Type} (l : List α) (x : α) :
    ∀ n, n ≤ l.length → (l ++ [x]).take n = l.take n := by
  induction l with
  | nil =>
      intro n hn
      have hz : n = 0 := by simpa using hn
      subst hz
      rfl
  | cons a rest ih =>
      intro n hn
      cases n with
      | zero => rfl
      | succ m =>
          simp only [List.cons_append, List.take_succ_cons]
          rw [ih m (by simpa using hn)]

theorem take_ge_length {α : Type} (l : List α) :
    ∀ n, l.length ≤ n → l.take n = l := by
  induction l with
  | nil => intro n _; simp
  | cons a rest ih =>
      intro n hn
      cases n with
      | zero => simp at hn
      | succ m =>
          simp only [List.take_succ_cons]
          rw [ih m (by simpa using hn)]

theorem validPairing_drop_last {es : List Ev} {e : Ev}
    (h : ValidPairing (es ++ [e])) : ValidPairing es := by
  intro n
  by_cases hn : n ≤ es.length
  · have hx := h n
    rwa [take_append_le es e n hn] at hx
  · rw [take_ge_length es n (by omega)]
    have hx := h es.length
    rwa [take_append_le es e es.length le_rfl, take_ge_length es es.length le_rfl]
      at hx

theorem validPairing_at_end {es : List Ev}
    (h : ValidPairing (es ++ [Ev.endC])) :
    (grun es).endCalls + 1 ≤ (grun es).admitted := by
  have hfull := h (es ++ [Ev.endC]).length
  rw [take_ge_length _ _ le_rfl, grun_append] at hfull
  simpa [gstep] using hfull

theorem invB_run {es : List Ev} (h : ValidPairing es) : InvB (grun es) := by
  induction es using List.reverseRecOn with
  | nil => exact invB_init
  | append_singleton es e ih =>
      have hB := ih (validPairing_drop_last h)
      have hA : InvA (grun es).t := by rw [grun_t]; exact invA_run es
      rw [grun_append]
      refine invB_step e hA hB ?_
      intro he
      subst he
      exact validPairing_at_end h

theorem activeNonneg {es : List Ev} (h : ValidPairing es) :
    0 ≤ (runEvents es).activeRequests := by
  have hx := (invB_run h).active_nonneg
  rwa [grun_t] at hx

theorem validPairing_of_bounded {es : List Ev}
    (H : ∀ n, n ≤ es.length →
      (grun (es.take n)).endCalls ≤ (grun (es.take n)).admitted) :
    ValidPairing es := by
  intro n
  by_cases hn : n ≤ es.length
  · exact H n hn
  · rw [take_ge_length es n (by omega)]
    have hx := H es.length le_rfl
    rwa [take_ge_length es es.length le_rfl] at hx

theorem processCmd_queue (s : TrackerState) (c : Cmd) :
    (processCmd s c).queue = s.queue := by
  cases c with
  | startRequest => rfl
  | endRequest =>
      rw [processCmd_end]
      split
      · rcases hsome : s.storedReason with _ | r
        · rw [sendStop_none (by simpa using hsome)]
        · rw [sendStop_some r (by simpa using hsome)]
      · rfl
  | shutdown =>
      rw [processCmd_sd]
      split
      · rcases hsome : s.storedReason with _ | r
        · rw [sendStop_none (by simpa using hsome)]
        · rw [sendStop_some r (by simpa using hsome)]
      · rfl

theorem processCmd_stopping_mono {s : TrackerState} {c : Cmd}
    (h : s.stopping = true) : (processCmd s c).stopping = true := by
  cases c with
  | startRequest => exact h
  | endRequest =>
      rw [processCmd_end]
      split
      · rcases hsome : s.storedReason with _ | r
        · rw [sendStop_none (by simpa using hsome)]; exact h
        · rw [sendStop_some r (by simpa using hsome)]; exact h
      · exact h
  | shutdown =>
      rw [processCmd_sd]
      split
      · rcases hsome : s.storedReason with _ | r
        · rw [sendStop_none (by simpa using hsome)]
        · rw [sendStop_some r (by simpa using hsome)]
      · rfl

theorem sdPending_loopStep {s : TrackerState} (h : SdPending s) :
    SdPending (loopStep s) := by
  by_cases hss : s.sentStop = true
  · rwa [loopStep_sent hss]
  · rcases hq : s.queue with _ | ⟨c, rest⟩
    · rw [loopStep_nil hq]
      exact h
    · rw [loopStep_cons (by simpa using hss) hq]
      rcases h with hstp | hm
      · exact Or.inl (processCmd_stopping_mono (by simpa using hstp))
      · rw [hq] at hm
        rcases List.mem_cons.mp hm with hc | hrest
        · subst hc
          refine Or.inl ?_
          rw [processCmd_sd]
          split
          · rcases hsome : s.storedReason with _ | r
            · rw [sendStop_none (by simpa using hsome)]
            · rw [sendStop_some r (by simpa using hsome)]
          · rfl
        · refine Or.inr ?_
          rw [processCmd_queue]
          exact hrest

theorem sdPending_stepEv {s : TrackerState} (e : Ev) (h : SdPending s) :
    SdPending (stepEv s e) := by
  cases e with
  | startC =>
      show SdPending (start s).2
      by_cases hf : s.shuttingDown = true
      · rwa [start_snd_fast hf]
      · rw [start_slow (by simpa using hf)]
        rcases h with hstp | hm
        · exact Or.inl hstp
        · exact Or.inr (by simp [hm])
  | endC =>
      rcases h with hstp | hm
      · exact Or.inl hstp
      · exact Or.inr (by simp [stepEv, endStep, hm])
  | shutdownC r =>
      exact Or.inr (by simp [stepEv, shutdownStep])
  | loop => exact sdPending_loopStep h
  | timer =>
      show SdPending (timerFire s)
      by_cases hss : s.sentStop = true
      · rwa [timerFire_sent hss]
      · by_cases hg : s.graceArmed = true
        · rw [timerFire_armed (by simpa using hss) hg]
          rcases hsome : s.storedReason with _ | r
          · rwa [sendStop_none (by simpa using hsome)]
          · rw [sendStop_some r (by simpa using hsome)]
            rcases h with hstp | hm
            · exact Or.inl hstp
            · exact Or.inr hm
        · rwa [timerFire_unarmed (by simpa using hg)]

theorem hasShutdown_append_singleton (es : List Ev) (e : Ev)
    (h : hasShutdown (es ++ [e]) = true) :
    hasShutdown es = true ∨ ∃ r, e = Ev.shutdownC r := by
  induction es with
  | nil =>
      cases e with
      | shutdownC r => exact Or.inr ⟨r, rfl⟩
      | startC => simp [hasShutdown] at h
      | endC => simp [hasShutdown] at h
      | loop => simp [hasShutdown] at h
      | timer => simp [hasShutdown] at h
  | cons a rest ih =>
      cases a with
      | shutdownC r => exact Or.inl rfl
      | startC => exact (ih h).imp (fun h1 => h1) id
      | endC => exact (ih h).imp (fun h1 => h1) id
      | loop => exact (ih h).imp (fun h1 => h1) id
      | timer => exact (ih h).imp (fun h1 => h1) id

theorem sdPending_of_hasShutdown {es : List Ev} (h : hasShutdown es = true) :
    SdPending (runEvents es) := by
  induction es using List.reverseRecOn with
  | nil => cases h
  | append_singleton es e ih =>
      rw [runEvents_append]
      rcases hasShutdown_append_singleton es e h with hprev | ⟨r, rfl⟩
      · exact sdPending_stepEv e (ih hprev)
      · exact Or.inr (by simp [stepEv, shutdownStep])

theorem loopDrain_sent {n : Nat} {s : TrackerState} (h : s.sentStop = true) :
    loopDrain n s = s := by
  induction n with
  | zero => rfl
  | succ m ih =>
      show loopDrain m (loopStep s) = s
      rw [loopStep_sent h, ih]

theorem loopDrain_invA {n : Nat} {s : TrackerState} (h : InvA s) :
    InvA (loopDrain n s) := by
  induction n generalizing s with
  | zero => exact h
  | succ m ih => exact ih (invA_step Ev.loop h)

theorem loopDrain_sdPending {n : Nat} {s : TrackerState} (h : SdPending s) :
    SdPending (loopDrain n s) := by
  induction n generalizing s with
  | zero => exact h
  | succ m ih => exact ih (sdPending_loopStep h)

theorem loopDrain_done {n : Nat} {s : TrackerState} (h : s.queue.length ≤ n) :
    (loopDrain n s).queue = [] ∨ (loopDrain n s).sentStop = true := by
  induction n generalizing s with
  | zero =>
      left
      have hq : s.queue = [] := List.eq_nil_of_length_eq_zero (Nat.le_zero.mp h)
      exact hq
  | succ m ih =>
      by_cases hss : s.sentStop = true
      · right
        rw [loopDrain_sent hss]
        exact hss
      · rcases hq : s.queue with _ | ⟨c, rest⟩
        · have hstep : loopDrain (m + 1) s = loopDrain m s := by
            show loopDrain m (loopStep s) = loopDrain m s
            rw [loopStep_nil hq]
          rw [hstep]
          exact ih (by rw [hq]; simp)
        · have hstep : loopDrain (m + 1) s =
              loopDrain m (processCmd { s with queue := rest } c) := by
            show loopDrain m (loopStep s) = _
            rw [loopStep_cons (by simpa using hss) hq]
          rw [hstep]
          refine ih ?_
          rw [processCmd_queue]
          have hlen : s.queue.length = rest.length + 1 := by rw [hq]; rfl
          show rest.length ≤ m
          omega

theorem fires_after_drain {s : TrackerState} (hA : InvA s) (hsd : SdPending s) :
    (timerFire (loopDrain s.queue.length s)).delivered.length = 1 := by
  have hA2 : InvA (loopDrain s.queue.length s) := loopDrain_invA hA
  have hsd2 : SdPending (loopDrain s.queue.length s) := loopDrain_sdPending hsd
  rcases loopDrain_done (le_refl s.queue.length) with hnil | hsent
  · by_cases hss : (loopDrain s.queue.length s).sentStop = true
    · rw [timerFire_sent hss]
      rw [hA2.delivered_len, hss]
      rfl
    · have hstp : (loopDrain s.queue.length s).stopping = true := by
        rcases hsd2 with h1 | h1
        · exact h1
        · rw [hnil] at h1; cases h1
      have hg := hA2.stopping_armed hstp (by simpa using hss)
      rcases hsome : (loopDrain s.queue.length s).storedReason with _ | r
      · exact absurd (hA2.stop_reason hstp) (by simp [hsome])
      · rw [timerFire_armed (by simpa using hss) hg, sendStop_some r hsome]
        have hd := hA2.delivered_len
        rw [if_neg (by simpa using hss)] at hd
        simp [hd]
  · rw [timerFire_sent hsent]
    rw [hA2.delivered_len, hsent]
    rfl

theorem stepEv_stopping_mono (s : TrackerState) (e : Ev) (h : s.stopping = true) :
    (stepEv s e).stopping = true := by
  cases e with
  | startC =>
      show (start s).2.stopping = true
      by_cases hf : s.shuttingDown = true
      · rwa [start_snd_fast hf]
      · rw [start_slow (by simpa using hf)]
        exact h
  | endC => exact h
  | shutdownC r => exact h
  | loop =>
      show (loopStep s).stopping = true
      by_cases hss : s.sentStop = true
      · rwa [loopStep_sent hss]
      · rcases hq : s.queue with _ | ⟨c, rest⟩
        · rwa [loopStep_nil hq]
        · rw [loopStep_cons (by simpa using hss) hq]
          exact processCmd_stopping_mono (by simpa using h)
  | timer =>
      show (timerFire s).stopping = true
      by_cases hss : s.sentStop = true
      · rwa [timerFire_sent hss]
      · by_cases hg : s.graceArmed = true
        · rw [timerFire_armed (by simpa using hss) hg]
          rcases hsome : s.storedReason with _ | r
          · rwa [sendStop_none (by simpa using hsome)]
          · rw [sendStop_some r (by simpa using hsome)]
            exact h
        · rwa [timerFire_unarmed (by simpa using hg)]

theorem stepEv_sent_mono (s : TrackerState) (e : Ev) (h : s.sentStop = true) :
    (stepEv s e).sentStop = true := by
  cases e with
  | startC =>
      show (start s).2.sentStop = true
      by_cases hf : s.shuttingDown = true
      · rwa [start_snd_fast hf]
      · rw [start_slow (by simpa using hf)]
        exact h
  | endC => exact h
  | shutdownC r => exact h
  | loop =>
      show (loopStep s).sentStop = true
      rwa [loopStep_sent h]
  | timer =>
      show (timerFire s).sentStop = true
      rwa [timerFire_sent h]

theorem phase_eq_active {s : TrackerState} :
    phase s = Phase.Active ↔ s.sentStop = false ∧ s.stopping = false := by
  unfold phase
  by_cases h2 : s.sentStop = true <;> by_cases h1 : s.stopping = true <;>
    simp [h1, h2]

theorem phase_eq_draining {s : TrackerState} :
    phase s = Phase.Draining ↔ s.sentStop = false ∧ s.stopping = true := by
  unfold phase
  by_cases h2 : s.sentStop = true <;> by_cases h1 : s.stopping = true <;>
    simp [h1, h2]

theorem phase_eq_stopped {s : TrackerState} :
    phase s = Phase.Stopped ↔ s.sentStop = true := by
  unfold phase
  by_cases h2 : s.sentStop = true <;> by_cases h1 : s.stopping = true <;>
    simp [h1, h2]

theorem phase_rank_mono (s : TrackerState) (e : Ev) :
    phaseRank (phase s) ≤ phaseRank (phase (stepEv s e)) := by
  by_cases h2 : s.sentStop = true
  · have h2' := stepEv_sent_mono s e h2
    have ha : phase s = Phase.Stopped := phase_eq_stopped.mpr h2
    have hb : phase (stepEv s e) = Phase.Stopped := phase_eq_stopped.mpr h2'
    rw [ha, hb]
  · by_cases h1 : s.stopping = true
    · have h1' := stepEv_stopping_mono s e h1
      have ha : phase s = Phase.Draining :=
        phase_eq_draining.mpr ⟨by simpa using h2, h1⟩
      rw [ha]
      by_cases h3 : (stepEv s e).sentStop = true
      · rw [phase_eq_stopped.mpr h3]
        exact Nat.le_succ 1
      · rw [phase_eq_draining.mpr ⟨by simpa using h3, h1'⟩]
    · have ha : phase s = Phase.Active :=
        phase_eq_active.mpr ⟨by simpa using h2, by simpa using h1⟩
      rw [ha]
      exact Nat.zero_le _

theorem sendStop_preserve (s : TrackerState) :
    (sendStop s).activeRequests = s.activeRequests
    ∧ (sendStop s).queue = s.queue
    ∧ (sendStop s).stopping = s.stopping
    ∧ (sendStop s).storedReason = s.storedReason
    ∧ (sendStop s).shuttingDown = s.shuttingDown
    ∧ (sendStop s).graceArmed = s.graceArmed := by
  rcases hsome : s.storedReason with _ | r
  · rw [sendStop_none hsome]
    exact ⟨rfl, rfl, rfl, hsome, rfl, rfl⟩
  · rw [sendStop_some r hsome]
    exact ⟨rfl, rfl, rfl, hsome, rfl, rfl⟩

theorem processCmd_active_start (s : TrackerState) :
    (processCmd s Cmd.startRequest).activeRequests = s.activeRequests + 1 := rfl

theorem processCmd_active_end (s : TrackerState) :
    (processCmd s Cmd.endRequest).activeRequests = s.activeRequests - 1 := by
  rw [processCmd_end]
  split
  · rw [(sendStop_preserve _).1]
  · rfl

theorem processCmd_active_sd (s : TrackerState) :
    (processCmd s Cmd.shutdown).activeRequests = s.activeRequests := by
  rw [processCmd_sd]
  split
  · rw [(sendStop_preserve _).1]
  · rfl

theorem countStartEv_append (l1 l2 : List Ev) :
    countStartEv (l1 ++ l2) = countStartEv l1 + countStartEv l2 := by
  induction l1 with
  | nil => simp [countStartEv]
  | cons a rest ih => cases a <;> simp [countStartEv, ih] <;> omega

theorem countEndEv_append (l1 l2 : List Ev) :
    countEndEv (l1 ++ l2) = countEndEv l1 + countEndEv l2 := by
  induction l1 with
  | nil => simp [countEndEv]
  | cons a rest ih => cases a <;> simp [countEndEv, ih] <;> omega

theorem hasShutdown_append_eq (l1 l2 : List Ev) :
    hasShutdown (l1 ++ l2) = (hasShutdown l1 || hasShutdown l2) := by
  induction l1 with
  | nil => simp [hasShutdown]
  | cons a rest ih => cases a <;> simp [hasShutdown, ih]

/-- Bookkeeping law, valid on every behaviour: the loop counter plus the
queued start/end deltas equals the number of enqueued starts minus the
number of `end` calls. -/
theorem conservation_all (es : List Ev) :
    (grun es).t.activeRequests + (startCmds (grun es).t.queue : Int)
        - (endCmds (grun es).t.queue : Int)
      = ((grun es).saCount : Int) - ((grun es).endCalls : Int) := by
  induction es using List.reverseRecOn with
  | nil => rfl
  | append_singleton es e ih =>
      rw [grun_append]
      cases e with
      | startC =>
          by_cases hf : (grun es).t.shuttingDown = true
          · have ht : (gstep (grun es) Ev.startC).t = (grun es).t := by
              simp [gstep, start_snd_fast hf]
            have hsa : (gstep (grun es) Ev.startC).saCount = (grun es).saCount := by
              simp [gstep, hf]
            have hec : (gstep (grun es) Ev.startC).endCalls = (grun es).endCalls := rfl
            rw [ht, hsa, hec]
            exact ih
          · have hf' : (grun es).t.shuttingDown = false := by simpa using hf
            have ht : (gstep (grun es) Ev.startC).t =
                { (grun es).t with queue := (grun es).t.queue ++ [Cmd.startRequest] } := by
              simp [gstep, start_slow hf']
            have hsa : (gstep (grun es) Ev.startC).saCount = (grun es).saCount + 1 := by
              simp [gstep, hf']
            have hec : (gstep (grun es) Ev.startC).endCalls = (grun es).endCalls := rfl
            rw [ht, hsa, hec]
            simp only [startCmds_append, endCmds_append, startCmds, endCmds]
            push_cast
            push_cast at ih
            omega
      | endC =>
          show (grun es).t.activeRequests
              + (startCmds ((grun es).t.queue ++ [Cmd.endRequest]) : Int)
              - (endCmds ((grun es).t.queue ++ [Cmd.endRequest]) : Int)
            = ((grun es).saCount : Int) - (((grun es).endCalls + 1 : Nat) : Int)
          simp only [startCmds_append, endCmds_append, startCmds, endCmds]
          push_cast
          push_cast at ih
          omega
      | shutdownC r =>
          show (grun es).t.activeRequests
              + (startCmds ((grun es).t.queue ++ [Cmd.shutdown]) : Int)
              - (endCmds ((grun es).t.queue ++ [Cmd.shutdown]) : Int)
            = ((grun es).saCount : Int) - ((grun es).endCalls : Int)
          simp only [startCmds_append, endCmds_append, startCmds, endCmds]
          push_cast
          push_cast at ih
          omega
      | loop =>
          have ht : (gstep (grun es) Ev.loop).t = loopStep (grun es).t := rfl
          have hsa : (gstep (grun es) Ev.loop).saCount = (grun es).saCount := rfl
          have hec : (gstep (grun es) Ev.loop).endCalls = (grun es).endCalls := rfl
          rw [ht, hsa, hec]
          by_cases hss : (grun es).t.sentStop = true
          · rw [loopStep_sent hss]; exact ih
          · rcases hq : (grun es).t.queue with _ | ⟨c, rest⟩
            · rw [loopStep_nil hq]; exact ih
            · rw [loopStep_cons (by simpa using hss) hq]
              rw [hq] at ih
              cases c with
              | startRequest =>
                  rw [processCmd_queue, processCmd_active_start]
                  simp only [startCmds, endCmds] at ih ⊢
                  push_cast at ih ⊢
                  omega
              | endRequest =>
                  rw [processCmd_queue, processCmd_active_end]
                  simp only [startCmds, endCmds] at ih ⊢
                  push_cast at ih ⊢
                  omega
              | shutdown =>
                  rw [processCmd_queue, processCmd_active_sd]
                  simp only [startCmds, endCmds] at ih ⊢
                  push_cast at ih ⊢
                  omega
      | timer =>
          have ht : (gstep (grun es) Ev.timer).t = timerFire (grun es).t := rfl
          rw [ht]
          by_cases hss : (grun es).t.sentStop = true
          · rw [timerFire_sent hss]; exact ih
          · by_cases hg : (grun es).t.graceArmed = true
            · rw [timerFire_armed (by simpa using hss) hg]
              rw [(sendStop_preserve _).1, (sendStop_preserve _).2.1]
              exact ih
            · rw [timerFire_unarmed (by simpa using hg)]; exact ih

/-- On a behaviour with no shutdown call, the tracker never leaves the
active phase, every `start` call reports admission through the queue,
and the `end` calls are all counted. -/
theorem noShutdown_inv {es : List Ev} (h : hasShutdown es = false) :
    (runEvents es).stopping = false
    ∧ (runEvents es).shuttingDown = false
    ∧ (runEvents es).sentStop = false
    ∧ (grun es).admitted = countStartEv es
    ∧ (grun es).saCount = countStartEv es
    ∧ (grun es).endCalls = countEndEv es
    ∧ Cmd.shutdown ∉ (runEvents es).queue := by
  induction es using List.reverseRecOn with
  | nil => exact ⟨rfl, rfl, rfl, rfl, rfl, rfl, by simp [runEvents, initTracker]⟩
  | append_singleton es e ih =>
      have hprev : hasShutdown es = false := by
        rw [hasShutdown_append_eq] at h
        exact (Bool.or_eq_false_iff.mp h).1
      have hlast : hasShutdown [e] = false := by
        rw [hasShutdown_append_eq] at h
        exact (Bool.or_eq_false_iff.mp h).2
      obtain ⟨i1, i2, i3, i4, i5, i6, i7⟩ := ih hprev
      rw [runEvents_append, grun_append]
      have ht : (grun es).t = runEvents es := grun_t es
      cases e with
      | startC =>
          have hslow := start_slow i2
          refine ⟨?_, ?_, ?_, ?_, ?_, ?_, ?_⟩ <;>
            simp [gstep, stepEv, ht, hslow, i1, i2, i3, i4, i5, i6, i7,
              countStartEv_append, countEndEv_append, countStartEv, countEndEv]
      | endC =>
          refine ⟨?_, ?_, ?_, ?_, ?_, ?_, ?_⟩ <;>
            simp [gstep, stepEv, endStep, ht, i1, i2, i3, i4, i5, i6, i7,
              countStartEv_append, countEndEv_append, countStartEv, countEndEv]
      | shutdownC r => simp [hasShutdown] at hlast
      | loop =>
          have hstep : stepEv (runEvents es) Ev.loop = loopStep (runEvents es) := rfl
          have hgt : (gstep (grun es) Ev.loop).t = loopStep (runEvents es) := by
            rw [gstep_t, ht]
            rfl
          have hga : (gstep (grun es) Ev.loop).admitted = (grun es).admitted := rfl
          have hgs : (gstep (grun es) Ev.loop).saCount = (grun es).saCount := rfl
          have hge : (gstep (grun es) Ev.loop).endCalls = (grun es).endCalls := rfl
          rcases hq : (runEvents es).queue with _ | ⟨c, rest⟩
          · rw [hstep, loopStep_nil hq]
            refine ⟨i1, i2, i3, ?_, ?_, ?_, ?_⟩
            · rw [hga, i4, countStartEv_append]; rfl
            · rw [hgs, i5, countStartEv_append]; rfl
            · rw [hge, i6, countEndEv_append]; rfl
            · rw [hq] at i7 ⊢; exact i7
          · have hrest : Cmd.shutdown ∉ rest := by
              intro hm
              exact i7 (by rw [hq]; exact List.mem_cons_of_mem _ hm)
            rw [hstep, loopStep_cons i3 hq]
            cases c with
            | startRequest =>
                rw [processCmd_start]
                refine ⟨i1, i2, i3, ?_, ?_, ?_, by simpa using hrest⟩
                · rw [hga, i4, countStartEv_append]; rfl
                · rw [hgs, i5, countStartEv_append]; rfl
                · rw [hge, i6, countEndEv_append]; rfl
            | endRequest =>
                have hskip := processCmd_end_skip
                  (s := { (runEvents es) with queue := rest })
                  (by simp [i1])
                rw [hskip]
                refine ⟨i1, i2, i3, ?_, ?_, ?_, by simpa using hrest⟩
                · rw [hga, i4, countStartEv_append]; rfl
                · rw [hgs, i5, countStartEv_append]; rfl
                · rw [hge, i6, countEndEv_append]; rfl
            | shutdown =>
                exact absurd (by rw [hq]; exact List.mem_cons_self _ _) i7
      | timer =>
          have hstep : stepEv (runEvents es) Ev.timer = timerFire (runEvents es) := rfl
          have hga : (gstep (grun es) Ev.timer).admitted = (grun es).admitted := rfl
          have hgs : (gstep (grun es) Ev.timer).saCount = (grun es).saCount := rfl
          have hge : (gstep (grun es) Ev.timer).endCalls = (grun es).endCalls := rfl
          have harm : (runEvents es).graceArmed = false := by
            by_contra hc
            have hx := (invA_run es).armed_stopping (by simpa using hc)
            rw [i1] at hx
            cases hx
          rw [hstep, timerFire_unarmed harm]
          refine ⟨i1, i2, i3, ?_, ?_, ?_, i7⟩
          · rw [hga, i4, countStartEv_append]; rfl
          · rw [hgs, i5, countStartEv_append]; rfl
          · rw [hge, i6, countEndEv_append]; rfl

/-- C6: for every behaviour in which each `end` call is preceded by a
matching `start` call that reported admission (`ValidPairing`) — with
shutdown calls allowed anywhere in the stream — the tracker loop's
`activeRequests` counter is never negative. -/
theorem c6_active_count_nonneg (es : List Ev) (h : ValidPairing es) :
    0 ≤ (runEvents es).activeRequests :=
  activeNonneg h

/-- Witness for C6: a concrete paired behaviour with a mid-stream
shutdown. -/
theorem c6_active_count_nonneg_witness :
    ValidPairing [Ev.startC, Ev.loop, Ev.startC, Ev.loop, Ev.shutdownC (some "sd"),
        Ev.loop, Ev.endC, Ev.loop, Ev.endC, Ev.loop]
    ∧ 0 ≤ (runEvents [Ev.startC, Ev.loop, Ev.startC, Ev.loop, Ev.shutdownC (some "sd"),
        Ev.loop, Ev.endC, Ev.loop, Ev.endC, Ev.loop]).activeRequests := by
  have hvp : ValidPairing [Ev.startC, Ev.loop, Ev.startC, Ev.loop,
      Ev.shutdownC (some "sd"), Ev.loop, Ev.endC, Ev.loop, Ev.endC, Ev.loop] :=
    validPairing_of_bounded (by decide)
  exact ⟨hvp, c6_active_count_nonneg _ hvp⟩

/-- C7: on every behaviour with no shutdown call, every `start` call
reports admission, and once the loop has processed all commands (empty
queue) after equally many `end` calls as `start` calls, `activeRequests`
is back to its initial value 0. -/
theorem c7_no_shutdown_all_admitted (es : List Ev) (h : hasShutdown es = false) :
    (grun es).admitted = countStartEv es
    ∧ ((runEvents es).queue = [] → countStartEv es = countEndEv es →
        (runEvents es).activeRequests = 0) := by
  obtain ⟨i1, i2, i3, i4, i5, i6, i7⟩ := noShutdown_inv h
  refine ⟨i4, ?_⟩
  intro hqnil hcnt
  have hc := conservation_all es
  rw [grun_t, hqnil, i5, i6, hcnt] at hc
  simp only [startCmds, endCmds] at hc
  omega

/-- Witness for C7: two paired requests, fully processed. -/
theorem c7_no_shutdown_all_admitted_witness :
    (grun [Ev.startC, Ev.loop, Ev.endC, Ev.loop]).admitted
        = countStartEv [Ev.startC, Ev.loop, Ev.endC, Ev.loop]
    ∧ (runEvents [Ev.startC, Ev.loop, Ev.endC, Ev.loop]).activeRequests = 0 :=
  ⟨(c7_no_shutdown_all_admitted [Ev.startC, Ev.loop, Ev.endC, Ev.loop] (by decide)).1,
   (c7_no_shutdown_all_admitted [Ev.startC, Ev.loop, Ev.endC, Ev.loop] (by decide)).2
      (by decide) (by decide)⟩

/-- C2: the completion value on channel `C` is delivered at most once on
every behaviour and exactly once from the moment the loop exits; and
after any behaviour containing a shutdown call, processing the queued
commands and letting the grace timer fire leaves it delivered exactly
once — never zero, never twice, however many shutdown commands, zero
crossings and timer firings the behaviour contains. -/
theorem c2_completion_exactly_once (es : List Ev) :
    (runEvents es).delivered.length ≤ 1
    ∧ ((runEvents es).sentStop = true → (runEvents es).delivered.length = 1)
    ∧ (hasShutdown es = true →
        (timerFire (loopDrain (runEvents es).queue.length
            (runEvents es))).delivered.length = 1) := by
  have hA := invA_run es
  refine ⟨?_, ?_, ?_⟩
  · rw [hA.delivered_len]
    split <;> omega
  · intro hs
    rw [hA.delivered_len, if_pos hs]
  · intro hsd
    exact fires_after_drain hA (sdPending_of_hasShutdown hsd)

/-- Witness for C2 at concrete behaviours. -/
theorem c2_completion_exactly_once_witness :
    (runEvents [Ev.shutdownC (some "x"), Ev.loop]).delivered.length ≤ 1
    ∧ (runEvents [Ev.shutdownC (some "x"), Ev.loop]).delivered.length = 1
    ∧ (timerFire (loopDrain (runEvents [Ev.shutdownC (some "x")]).queue.length
        (runEvents [Ev.shutdownC (some "x")]))).delivered.length = 1 :=
  ⟨(c2_completion_exactly_once [Ev.shutdownC (some "x"), Ev.loop]).1,
   (c2_completion_exactly_once [Ev.shutdownC (some "x"), Ev.loop]).2.1 (by decide),
   (c2_completion_exactly_once [Ev.shutdownC (some "x")]).2.2 (by decide)⟩

/-- C3: the barrier phase (`Active` = not stopping, `Draining` =
stopping but not stopped, `Stopped` = loop exited) follows the spec's
state machine on every reachable state: transitions are monotone and
`Stopped` is terminal; processing `shutdown` at zero active count fires
the completion immediately, at positive count it moves to `Draining` and
arms the grace timer; processing the `end` that brings the count to zero
while draining fires; and the grace timer firing while draining stops
the barrier regardless of the active count. -/
theorem c3_phase_machine (es : List Ev) :
    (∀ e, phaseRank (phase (runEvents es))
        ≤ phaseRank (phase (stepEv (runEvents es) e)))
    ∧ (phase (runEvents es) = Phase.Stopped →
        ∀ e, phase (stepEv (runEvents es) e) = Phase.Stopped)
    ∧ (∀ rest, phase (runEvents es) = Phase.Active →
        (runEvents es).queue = Cmd.shutdown :: rest →
        (runEvents es).activeRequests = 0 →
        phase (loopStep (runEvents es)) = Phase.Stopped
          ∧ (loopStep (runEvents es)).delivered.length = 1)
    ∧ (∀ rest, phase (runEvents es) = Phase.Active →
        (runEvents es).queue = Cmd.shutdown :: rest →
        0 < (runEvents es).activeRequests →
        phase (loopStep (runEvents es)) = Phase.Draining
          ∧ (loopStep (runEvents es)).graceArmed = true)
    ∧ (∀ rest, phase (runEvents es) = Phase.Draining →
        (runEvents es).queue = Cmd.endRequest :: rest →
        (runEvents es).activeRequests = 1 →
        phase (loopStep (runEvents es)) = Phase.Stopped
          ∧ (loopStep (runEvents es)).delivered.length = 1)
    ∧ (phase (runEvents es) = Phase.Draining →
        phase (timerFire (runEvents es)) = Phase.Stopped) := by
  have hA := invA_run es
  refine ⟨fun e => phase_rank_mono _ e, ?_, ?_, ?_, ?_, ?_⟩
  · intro hstp e
    exact phase_eq_stopped.mpr (stepEv_sent_mono _ e (phase_eq_stopped.mp hstp))
  · intro rest hact hq hz
    obtain ⟨hss, hstp⟩ := phase_eq_active.mp hact
    rcases hsome : (runEvents es).storedReason with _ | r
    · exact absurd (hA.queue_reason (by rw [hq]; exact List.mem_cons_self _ _))
        (by simp [hsome])
    · rw [loopStep_cons hss hq, processCmd_sd_fire (by simpa using hz.le),
        sendStop_some r (by simpa using hsome)]
      have hd := hA.delivered_len
      rw [hss] at hd
      constructor
      · exact phase_eq_stopped.mpr rfl
      · simpa using hd
  · intro rest hact hq hpos
    obtain ⟨hss, hstp⟩ := phase_eq_active.mp hact
    rw [loopStep_cons hss hq, processCmd_sd_arm (by simpa using hpos)]
    exact ⟨phase_eq_draining.mpr ⟨hss, rfl⟩, rfl⟩
  · intro rest hdra hq hone
    obtain ⟨hss, hstp⟩ := phase_eq_draining.mp hdra
    rcases hsome : (runEvents es).storedReason with _ | r
    · exact absurd (hA.stop_reason hstp) (by simp [hsome])
    · rw [loopStep_cons hss hq,
        processCmd_end_fire (by simpa using hstp) (by simp [hone]),
        sendStop_some r (by simpa using hsome)]
      have hd := hA.delivered_len
      rw [hss] at hd
      constructor
      · exact phase_eq_stopped.mpr rfl
      · simpa using hd
  · intro hdra
    obtain ⟨hss, hstp⟩ := phase_eq_draining.mp hdra
    have hg := hA.stopping_armed hstp hss
    rcases hsome : (runEvents es).storedReason with _ | r
    · exact absurd (hA.stop_reason hstp) (by simp [hsome])
    · rw [timerFire_armed hss hg, sendStop_some r hsome]
      exact phase_eq_stopped.mpr rfl

/-- Witness for C3 at concrete behaviours covering each transition. -/
theorem c3_phase_machine_witness :
    (phase (loopStep (runEvents [Ev.shutdownC (some "x")])) = Phase.Stopped
      ∧ (loopStep (runEvents [Ev.shutdownC (some "x")])).delivered.length = 1)
    ∧ (phase (loopStep (runEvents [Ev.startC, Ev.loop, Ev.shutdownC (some "x")]))
          = Phase.Draining
      ∧ (loopStep (runEvents [Ev.startC, Ev.loop,
          Ev.shutdownC (some "x")])).graceArmed = true)
    ∧ (phase (loopStep (runEvents [Ev.startC, Ev.loop, Ev.shutdownC (some "x"),
          Ev.loop, Ev.endC])) = Phase.Stopped
      ∧ (loopStep (runEvents [Ev.startC, Ev.loop, Ev.shutdownC (some "x"),
          Ev.loop, Ev.endC])).delivered.length = 1)
    ∧ phase (timerFire (runEvents [Ev.startC, Ev.loop, Ev.shutdownC (some "x"),
        Ev.loop])) = Phase.Stopped :=
  ⟨(c3_phase_machine [Ev.shutdownC (some "x")]).2.2.1 []
      (by decide) (by decide) (by decide),
   (c3_phase_machine [Ev.startC, Ev.loop, Ev.shutdownC (some "x")]).2.2.2.1 []
      (by decide) (by decide) (by decide),
   (c3_phase_machine [Ev.startC, Ev.loop, Ev.shutdownC (some "x"), Ev.loop,
      Ev.endC]).2.2.2.2.1 [] (by decide) (by decide) (by decide),
   (c3_phase_machine [Ev.startC, Ev.loop, Ev.shutdownC (some "x"),
      Ev.loop]).2.2.2.2.2 (by decide)⟩

/-- C1 counterexample: after a nil-reason shutdown has been processed
(the `shuttingDown` flag is set), a subsequent `start` call returns the
nil error — the request proceeds as admitted — instead of being rejected
with a generic "stopping" cause as the claim states. -/
theorem c1_counterexample :
    (runEvents [Ev.shutdownC none, Ev.loop]).shuttingDown = true
    ∧ (start (runEvents [Ev.shutdownC none, Ev.loop])).1 = none := by
  decide

/-- C1 (amended): once the tracker loop has processed a shutdown command
(the `shuttingDown` flag is set), every subsequent `start` call returns
the currently stored reason and leaves the tracker state unchanged
(nothing is enqueued, so `activeRequests` is unaffected): a non-nil
stored reason is returned as the rejection cause, while a nil stored
reason makes `start` return nil, i.e. the request proceeds as if
admitted — there is no generic "stopping" fallback in the tracker. -/
theorem c1_reject_with_stored_reason (es : List Ev) (r : Reason)
    (hf : (runEvents es).shuttingDown = true)
    (hr : (runEvents es).storedReason = some r) :
    (start (runEvents es)).1 = r ∧ (start (runEvents es)).2 = runEvents es := by
  rw [start_fast hf hr]
  exact ⟨rfl, rfl⟩

/-- Witness for the amended C1: a non-nil reason is returned to the
caller, with no state change. -/
theorem c1_reject_with_stored_reason_witness :
    (start (runEvents [Ev.shutdownC (some "going down"), Ev.loop])).1
        = some "going down"
    ∧ (start (runEvents [Ev.shutdownC (some "going down"), Ev.loop])).2
        = runEvents [Ev.shutdownC (some "going down"), Ev.loop] :=
  c1_reject_with_stored_reason [Ev.shutdownC (some "going down"), Ev.loop]
    (some "going down") (by decide) (by decide)

/-- C5 counterexample: two shutdown calls with different reasons — the
second `shutdown` call's store overwrites the first, the completion
channel delivers the second reason, and a subsequent `start` is rejected
with the second reason, so the first call does not win. -/
theorem c5_counterexample :
    (runEvents [Ev.shutdownC (some "first"),
        Ev.shutdownC (some "second")]).storedReason = some (some "second")
    ∧ (runEvents [Ev.shutdownC (some "first"), Ev.shutdownC (some "second"),
        Ev.loop]).delivered = [some "second"]
    ∧ (start (runEvents [Ev.shutdownC (some "first"), Ev.shutdownC (some "second"),
        Ev.loop])).1 = some "second" := by
  decide

/-- C5 (amended): `shutdownReason` is written on every `shutdown` call —
each call unconditionally overwrites the stored value and enqueues a
`shutdown` command, so the reason later honoured (returned by `start`,
delivered on `C`) is the most recently stored one: the last writer wins,
not the first. -/
theorem c5_last_writer_wins (s : TrackerState) (r : Reason) :
    (shutdownStep r s).storedReason = some r
    ∧ (shutdownStep r s).queue = s.queue ++ [Cmd.shutdown] :=
  ⟨rfl, rfl⟩

/-- C10 counterexample: the claimed negative `activeCount` is
unreachable.  On every behaviour satisfying the guarded handler's
pairing discipline (each `end` preceded by a `start` that reported
admission — fast-path admissions during a nil-reason shutdown included),
the counter stays non-negative: the zero crossing fires the stop and the
loop exits before any unmatched `endRequest` can be processed. -/
theorem c10_counterexample :
    ¬∃ es : List Ev, ValidPairing es ∧ (runEvents es).activeRequests < 0 := by
  rintro ⟨es, hvp, hneg⟩
  have hx := activeNonneg hvp
  omega

/-- C10 (amended): when shutdown was called with a nil reason, once the
flag is set a `start` call returns nil (the request proceeds) without
enqueuing a `startRequest` and without changing any state, while the
paired `end` still enqueues a decrement with no matching increment; the
barrier can then drain — deliver its completion — while such a request
is still running (the demo behaviour ends with one more admission than
`end` calls); but `activeRequests` never becomes negative. -/
theorem c10_nil_shutdown_phantom_admission :
    (∀ es, (runEvents es).shuttingDown = true →
      (runEvents es).storedReason = some none →
      (start (runEvents es)).1 = none
        ∧ (start (runEvents es)).2 = runEvents es
        ∧ (endStep (runEvents es)).queue
            = (runEvents es).queue ++ [Cmd.endRequest])
    ∧ ((runEvents demoC10).sentStop = true
        ∧ (runEvents demoC10).delivered = [none]
        ∧ countEndEv demoC10 < countStartEv demoC10) := by
  constructor
  · intro es hf hr
    rw [start_fast hf hr]
    exact ⟨rfl, rfl, rfl⟩
  · decide

/-- Witness for the amended C10: the phantom admission at a concrete
state reached after a processed nil-reason shutdown. -/
theorem c10_nil_shutdown_phantom_admission_witness :
    (start (runEvents [Ev.shutdownC none, Ev.loop])).1 = none
    ∧ (start (runEvents [Ev.shutdownC none, Ev.loop])).2
        = runEvents [Ev.shutdownC none, Ev.loop]
    ∧ (endStep (runEvents [Ev.shutdownC none, Ev.loop])).queue
        = (runEvents [Ev.shutdownC none, Ev.loop]).queue ++ [Cmd.endRequest] :=
  c10_nil_shutdown_phantom_admission.1 [Ev.shutdownC none, Ev.loop]
    (by decide) (by decide)

/-- C4 counterexample: with the tracker in its initial admitting state,
a downstream handler that panics unwinds through
`httpHandler.ServeHTTP` with `tracker.end()` never executed (no
`endRequest` enqueued), because the source calls `end()` after the
normal return of the downstream handler instead of in a deferred,
scope-guaranteed cleanup. -/
theorem c4_counterexample :
    (serveHTTP initTracker "text/plain" Outcome.panics).downstreamCalled = true
    ∧ (serveHTTP initTracker "text/plain" Outcome.panics).endCalled = false
    ∧ (serveHTTP initTracker "text/plain" Outcome.panics).panicked = true
    ∧ (serveHTTP initTracker "text/plain" Outcome.panics).state.queue
        = [Cmd.startRequest] := by
  decide

/-- C4 (amended): for every admitted request the guarded handler calls
`tracker.end` exactly once when the downstream handler returns normally;
the call is a plain statement after the handler invocation, not a
scope-guaranteed cleanup, so when the downstream handler panics, `end`
is not called and the admission is never released. -/
theorem c4_release_after_normal_return (s : TrackerState) (accept : String)
    (h : (start s).1 = none) :
    ((serveHTTP s accept Outcome.normal).endCalled = true
      ∧ (serveHTTP s accept Outcome.normal).state = endStep (start s).2
      ∧ (serveHTTP s accept Outcome.normal).downstreamCalled = true)
    ∧ ((serveHTTP s accept Outcome.panics).endCalled = false
      ∧ (serveHTTP s accept Outcome.panics).state = (start s).2
      ∧ (serveHTTP s accept Outcome.panics).panicked = true) := by
  rcases hst : start s with ⟨res, s1⟩
  have hres : res = none := by rw [hst] at h; exact h
  subst hres
  refine ⟨⟨?_, ?_, ?_⟩, ⟨?_, ?_, ?_⟩⟩ <;> simp [serveHTTP, hst]

/-- Witness for the amended C4 at the initial tracker state. -/
theorem c4_release_after_normal_return_witness :
    ((serveHTTP initTracker "text/plain" Outcome.normal).endCalled = true
      ∧ (serveHTTP initTracker "text/plain" Outcome.normal).state
          = endStep (start initTracker).2
      ∧ (serveHTTP initTracker "text/plain" Outcome.normal).downstreamCalled = true)
    ∧ ((serveHTTP initTracker "text/plain" Outcome.panics).endCalled = false
      ∧ (serveHTTP initTracker "text/plain" Outcome.panics).state
          = (start initTracker).2
      ∧ (serveHTTP initTracker "text/plain" Outcome.panics).panicked = true) :=
  c4_release_after_normal_return initTracker "text/plain" (by decide)

/-- C8: on every rejected request (`start` returned a non-nil error) the
guarded handler does not invoke the downstream handler, does not call
`end`, leaves the tracker state untouched, and writes exactly HTTP 503
with Content-Type the media type negotiated from the client's Accept
header against the server-supported list, and a body that is the JSON
object with category "Stopping" and the reason's message when
application/json was negotiated, or the raw reason text otherwise. -/
theorem c8_rejection_response (s : TrackerState) (accept msg : String)
    (oc : Outcome) (h : (start s).1 = some msg) :
    (serveHTTP s accept oc).downstreamCalled = false
    ∧ (serveHTTP s accept oc).endCalled = false
    ∧ (serveHTTP s accept oc).panicked = false
    ∧ (serveHTTP s accept oc).state = s
    ∧ (serveHTTP s accept oc).response = some
        { status := 503,
          contentType := SelectMediaType accept ["text/plain", "application/json"],
          body :=
            if SelectMediaType accept ["text/plain", "application/json"]
                = "application/json"
            then RespBody.jsonError "Stopping" msg
            else RespBody.raw msg } := by
  have hf : s.shuttingDown = true := by
    by_contra hc
    rw [start_slow (by simpa using hc)] at h
    cases h
  rcases hst : start s with ⟨res, s1⟩
  have hres : res = some msg := by rw [hst] at h; exact h
  have hs1 : s1 = s := by
    have hx := start_snd_fast hf
    rw [hst] at hx
    exact hx
  subst hres
  subst hs1
  refine ⟨?_, ?_, ?_, ?_, ?_⟩ <;> simp [serveHTTP, hst]

/-- Witness for C8: a JSON-negotiated rejection at a concrete
post-shutdown state. -/
theorem c8_rejection_response_witness :
    (serveHTTP (runEvents [Ev.shutdownC (some "stopping now"), Ev.loop])
        "application/json" Outcome.normal).downstreamCalled = false
    ∧ (serveHTTP (runEvents [Ev.shutdownC (some "stopping now"), Ev.loop])
        "application/json" Outcome.normal).state
        = runEvents [Ev.shutdownC (some "stopping now"), Ev.loop]
    ∧ (serveHTTP (runEvents [Ev.shutdownC (some "stopping now"), Ev.loop])
        "application/json" Outcome.normal).response = some
        { status := 503, contentType := "application/json",
          body := RespBody.jsonError "Stopping" "stopping now" } := by
  have h := c8_rejection_response
    (runEvents [Ev.shutdownC (some "stopping now"), Ev.loop])
    "application/json" "stopping now" Outcome.normal (by decide)
  refine ⟨h.1, h.2.2.2.1, ?_⟩
  rw [h.2.2.2.2]
  decide

theorem shutdownOnlyB_append (r : Reason) (l1 l2 : List Ev) :
    shutdownOnlyB r (l1 ++ l2) = (shutdownOnlyB r l1 && shutdownOnlyB r l2) := by
  induction l1 with
  | nil => simp [shutdownOnlyB]
  | cons a rest ih =>
      cases a <;> simp [shutdownOnlyB, ih, Bool.and_assoc]

theorem shutdownOnly_inv {es : List Ev} {r : Reason}
    (h : shutdownOnlyB r es = true) :
    ((runEvents es).storedReason = none ∨ (runEvents es).storedReason = some r)
    ∧ (∀ v ∈ (runEvents es).delivered, v = r) := by
  induction es using List.reverseRecOn with
  | nil => exact ⟨Or.inl rfl, by intro v hv; cases hv⟩
  | append_singleton es e ih =>
      rw [shutdownOnlyB_append] at h
      obtain ⟨hprev, hlast⟩ : shutdownOnlyB r es = true ∧ shutdownOnlyB r [e] = true := by
        simpa using h
      obtain ⟨ist, idel⟩ := ih hprev
      rw [runEvents_append]
      cases e with
      | startC =>
          by_cases hf : (runEvents es).shuttingDown = true
          · rw [show stepEv (runEvents es) Ev.startC = (start (runEvents es)).2 from rfl,
              start_snd_fast hf]
            exact ⟨ist, idel⟩
          · rw [show stepEv (runEvents es) Ev.startC = (start (runEvents es)).2 from rfl,
              start_slow (by simpa using hf)]
            exact ⟨ist, idel⟩
      | endC => exact ⟨ist, idel⟩
      | shutdownC r2 =>
          have hr2 : r2 = r := by
            simpa [shutdownOnlyB] using hlast
          subst hr2
          exact ⟨Or.inr rfl, idel⟩
      | loop =>
          rw [show stepEv (runEvents es) Ev.loop = loopStep (runEvents es) from rfl]
          by_cases hss : (runEvents es).sentStop = true
          · rw [loopStep_sent hss]
            exact ⟨ist, idel⟩
          · rcases hq : (runEvents es).queue with _ | ⟨c, rest⟩
            · rw [loopStep_nil hq]
              exact ⟨ist, idel⟩
            · rw [loopStep_cons (by simpa using hss) hq]
              cases c with
              | startRequest =>
                  rw [processCmd_start]
                  exact ⟨ist, idel⟩
              | endRequest =>
                  rw [processCmd_end]
                  split
                  · rcases ist with h0 | h0
                    · rw [sendStop_none (by simpa using h0)]
                      exact ⟨Or.inl (by simpa using h0), idel⟩
                    · rw [sendStop_some r (by simpa using h0)]
                      refine ⟨Or.inr (by simpa using h0), ?_⟩
                      intro v hv
                      simp only [List.mem_append, List.mem_singleton] at hv
                      rcases hv with hv | hv
                      · exact idel v hv
                      · exact hv
                  · exact ⟨ist, idel⟩
              | shutdown =>
                  rw [processCmd_sd]
                  split
                  · rcases ist with h0 | h0
                    · rw [sendStop_none (by simpa using h0)]
                      exact ⟨Or.inl (by simpa using h0), idel⟩
                    · rw [sendStop_some r (by simpa using h0)]
                      refine ⟨Or.inr (by simpa using h0), ?_⟩
                      intro v hv
                      simp only [List.mem_append, List.mem_singleton] at hv
                      rcases hv with hv | hv
                      · exact idel v hv
                      · exact hv
                  · exact ⟨ist, idel⟩
      | timer =>
          rw [show stepEv (runEvents es) Ev.timer = timerFire (runEvents es) from rfl]
          by_cases hss : (runEvents es).sentStop = true
          · rw [timerFire_sent hss]
            exact ⟨ist, idel⟩
          · by_cases hg : (runEvents es).graceArmed = true
            · rw [timerFire_armed (by simpa using hss) hg]
              rcases ist with h0 | h0
              · rw [sendStop_none h0]
                exact ⟨Or.inl h0, idel⟩
              · rw [sendStop_some r h0]
                refine ⟨Or.inr h0, ?_⟩
                intro v hv
                simp only [List.mem_append, List.mem_singleton] at hv
                rcases hv with hv | hv
                · exact idel v hv
                · exact hv
            · rw [timerFire_unarmed (by simpa using hg)]
              exact ⟨ist, idel⟩

theorem delivered_eq_of_fired {es : List Ev} {r : Reason}
    (ho : shutdownOnlyB r es = true) (hs : (runEvents es).sentStop = true) :
    (runEvents es).delivered = [r] := by
  have hlen := (invA_run es).delivered_len
  rw [if_pos hs] at hlen
  obtain ⟨_, hall⟩ := shutdownOnly_inv ho
  rcases hd : (runEvents es).delivered with _ | ⟨v, rest⟩
  · rw [hd] at hlen
    cases hlen
  · rw [hd] at hlen hall
    have hrest : rest = [] := by
      have : rest.length = 0 := by simpa using hlen
      exact List.eq_nil_of_length_eq_zero this
    subst hrest
    have hv : v = r := hall v (List.mem_cons_self _ _)
    rw [hv]

theorem listen_opened {sc : ScaffoldState} {b : Bool} {c : Reason}
    (h : sc.opened = true) :
    (listenScaffold sc b c).returned = some c
    ∧ (listenScaffold sc b c).state.closeCount = sc.closeCount + 1
    ∧ (listenScaffold sc b c).state.opened = true
    ∧ (listenScaffold sc b c).bindFailed = false := by
  refine ⟨?_, ?_, ?_, ?_⟩ <;> simp [listenScaffold, h]

theorem listen_unopened_bind_ok {sc : ScaffoldState} {c : Reason}
    (h : sc.opened = false) :
    (listenScaffold sc true c).returned = some c
    ∧ (listenScaffold sc true c).state.closeCount = sc.closeCount + 1
    ∧ (listenScaffold sc true c).state.opened = true
    ∧ (listenScaffold sc true c).state.trackerCreated = true
    ∧ (listenScaffold sc true c).bindFailed = false := by
  refine ⟨?_, ?_, ?_, ?_, ?_⟩ <;> simp [listenScaffold, h, openScaffold]

/-- C9: once the barrier's completion has fired (modelling `Listen`'s
blocking receive on `tracker.C` becoming ready), and all shutdown calls
carried the reason `r`, the value delivered is exactly `r`; `Listen` on
a scaffold that was not already opened opens it first (creating the
tracker and binding the listener), and in every successful case it
closes the listener exactly once after the receive and returns the
delivered shutdown reason to its caller. -/
theorem c9_listen_behavior (es : List Ev) (r : Reason) (sc : ScaffoldState)
    (bindOk : Bool) (ho : shutdownOnlyB r es = true)
    (hfired : (runEvents es).sentStop = true) :
    (runEvents es).delivered = [r]
    ∧ (sc.opened = false →
        (listenScaffold sc true r).state.opened = true
        ∧ (listenScaffold sc true r).state.trackerCreated = true
        ∧ (listenScaffold sc true r).returned = some r
        ∧ (listenScaffold sc true r).state.closeCount = sc.closeCount + 1)
    ∧ (sc.opened = true →
        (listenScaffold sc bindOk r).returned = some r
        ∧ (listenScaffold sc bindOk r).state.closeCount = sc.closeCount + 1) := by
  refine ⟨delivered_eq_of_fired ho hfired, ?_, ?_⟩
  · intro h
    obtain ⟨l1, l2, l3, l4, l5⟩ := @listen_unopened_bind_ok sc r h
    exact ⟨l3, l4, l1, l2⟩
  · intro h
    obtain ⟨l1, l2, l3, l4⟩ := @listen_opened sc bindOk r h
    exact ⟨l1, l2⟩

/-- Witness for C9 at a concrete fired behaviour and a fresh scaffold. -/
theorem c9_listen_behavior_witness :
    (runEvents [Ev.shutdownC (some "done"), Ev.loop]).delivered = [some "done"]
    ∧ (listenScaffold demoScaffold true (some "done")).state.opened = true
    ∧ (listenScaffold demoScaffold true (some "done")).returned = some (some "done")
    ∧ (listenScaffold demoScaffold true (some "done")).state.closeCount = 1 := by
  have h := c9_listen_behavior [Ev.shutdownC (some "done"), Ev.loop] (some "done")
    demoScaffold true (by decide) (by decide)
  obtain ⟨d, hun, _⟩ := h
  obtain ⟨o1, o2, o3, o4⟩ := hun rfl
  exact ⟨d, o1, o3, by simpa [demoScaffold] using o4⟩

